import Mathlib

/-!
Shallow embedding of `reflect.py` (continuous monitor for failed benchmark
jobs with a self-improving feedback pipeline).

The filesystem is modelled explicitly:
  * the scanned job tree `jobs/` is a list of job directories, each with a
    list of task directories; a task directory records the contents of its
    reward marker file (`verifier/reward.txt`, `none` when missing or
    unreadable), and whether its trajectory artifact
    (`agent/command-0/stdout.txt`) and its optional test-result file
    (`verifier/test-stdout.txt`) exist;
  * the archive tree `failed-jobs/` is the list of destination paths that
    currently exist; copying a file adds its destination path;
  * a `shutil.copy` call that raises (for example an unreadable source) is
    modelled by a predicate `bad` on source paths; the exception leaves the
    destination uncreated and, since the source has no try/except inside
    `copy_failed_artifacts`, it propagates out of the function, which is
    modelled by the `Option` in the result (`none` = the call raised);
  * each external subprocess invocation (`microcode`, `uv run nanocode.py`)
    is an oracle outcome: completion with an exit code, a timeout
    (`subprocess.TimeoutExpired`), or a spawn/invocation error (any other
    exception); the state of the `FEEDBACK.md` file after the reflection
    subprocess returns is part of the reflection oracle.

Python `int(s.strip())` is modelled by `String.toInt?` after `String.trim`;
the claims only depend on strings that both parsers treat alike.
-/

namespace Reflect

/-- Outcome of one external subprocess invocation (`subprocess.run`):
either the process completed with an exit code, or the call raised
`TimeoutExpired`, or it raised some other exception (spawn failure etc.). -/
inductive SubprocOutcome where
  | completed (exitCode : Int)
  | timedOut
  | raised
  deriving DecidableEq

/-- Mirror of the `FailedTask` dataclass of `reflect.py`. -/
structure FailedTask where
  job_id : String
  task_id : String
  job_path : String
  trajectory_path : String
  test_result_path : Option String
  reward : Int
  deriving DecidableEq

/-- One entry of a job directory: a task directory as seen by the scanner.
`rewardText` is the contents of `verifier/reward.txt` (`none` when the file
is missing or unreadable, both of which the source skips), and the two
booleans record existence of `agent/command-0/stdout.txt` and
`verifier/test-stdout.txt`. -/
structure TaskDir where
  name : String
  isDir : Bool
  rewardText : Option String
  trajectoryExists : Bool
  testStdoutExists : Bool
  deriving DecidableEq

/-- One entry of the jobs directory. -/
structure JobDir where
  name : String
  isDir : Bool
  tasks : List TaskDir
  deriving DecidableEq

/-- Path of a task directory, `jobs/{job_id}/{task_id}`. -/
def taskPath (jobId taskId : String) : String :=
  "jobs/" ++ jobId ++ "/" ++ taskId

/-- Path of the trajectory artifact of a task. -/
def trajectoryPath (jobId taskId : String) : String :=
  taskPath jobId taskId ++ "/agent/command-0/stdout.txt"

/-- Path of the optional test-result artifact of a task. -/
def testStdoutPath (jobId taskId : String) : String :=
  taskPath jobId taskId ++ "/verifier/test-stdout.txt"

/-- Strip leading and trailing whitespace from a character list, as Python
`str.strip()` does. -/
def stripChars (l : List Char) : List Char :=
  ((l.dropWhile Char.isWhitespace).reverse.dropWhile Char.isWhitespace).reverse

/-- Parse a non-empty run of decimal digits. -/
def parseDigits : List Char → Option Nat
  | [] => none
  | cs =>
    cs.foldl
      (fun acc c =>
        match acc with
        | none => none
        | some n => if c.isDigit then some (n * 10 + (c.toNat - 48)) else none)
      (some 0)

/-- Parse an optionally signed decimal integer from a stripped character
list; `none` models Python `int` raising `ValueError`. -/
def parseIntChars (l : List Char) : Option Int :=
  match l with
  | '-' :: rest => (parseDigits rest).map fun n => -(n : Int)
  | '+' :: rest => (parseDigits rest).map fun n => (n : Int)
  | _ => (parseDigits l).map fun n => (n : Int)

/-- Model of Python `int(s.strip())`: `some n` when the reward marker parses
as an optionally signed decimal integer after stripping surrounding
whitespace, `none` when `ValueError` is raised.  (Python's underscore digit
separators and non-ASCII digits are not modelled; no claim depends on
them.) -/
def pyInt (s : String) : Option Int :=
  parseIntChars (stripChars s.data)

/-- The `FailedTask` record built in the body of `find_failed_tasks` for a
qualifying task directory. -/
def mkFailedTask (jobId : String) (td : TaskDir) (reward : Int) : FailedTask :=
  { job_id := jobId
    task_id := td.name
    job_path := taskPath jobId td.name
    trajectory_path := trajectoryPath jobId td.name
    test_result_path :=
      if td.testStdoutExists then some (testStdoutPath jobId td.name) else none
    reward := reward }

/-- Body of the inner loop of `find_failed_tasks` for one task directory:
skip non-directories, skip a missing reward marker, skip a non-integer
reward, and report the task iff the reward is `0` and the trajectory file
exists. -/
def scanTask (jobId : String) (td : TaskDir) : Option FailedTask :=
  if td.isDir then
    match td.rewardText with
    | none => none
    | some s =>
      match pyInt s with
      | none => none
      | some reward =>
        if reward = 0 ∧ td.trajectoryExists then
          some (mkFailedTask jobId td reward)
        else none
  else none

/-- Mirror of `find_failed_tasks`: walk two levels of the jobs tree and
collect the qualifying failed tasks in traversal order. -/
def find_failed_tasks (tree : List JobDir) : List FailedTask :=
  tree.flatMap fun jd =>
    if jd.isDir then jd.tasks.filterMap (scanTask jd.name) else []

/-- Archive destination of a trajectory copy,
`failed-jobs/{job_id}/{task_id}/trajectory.txt`. -/
def trajDest (jobId taskId : String) : String :=
  "failed-jobs/" ++ jobId ++ "/" ++ taskId ++ "/trajectory.txt"

/-- Archive destination of a test-result copy,
`failed-jobs/{job_id}/{task_id}/test-case-result.txt`. -/
def testDest (jobId taskId : String) : String :=
  "failed-jobs/" ++ jobId ++ "/" ++ taskId ++ "/test-case-result.txt"

/-- Mirror of the `jobs_with_new_failures` dict update: append `taskId` to
the list of the entry of `jobId`, creating the entry when absent. -/
def addToMap (m : List (String × List String)) (jobId taskId : String) :
    List (String × List String) :=
  match m with
  | [] => [(jobId, [taskId])]
  | (k, ts) :: rest =>
    if k = jobId then (k, ts ++ [taskId]) :: rest
    else (k, ts) :: addToMap rest jobId taskId

/-- Body of `copy_failed_artifacts`: process the records in order.  For each
record, copy the trajectory iff its destination does not exist (recording
the task as newly archived), then copy the test-result file (when the record
has one) iff its destination does not exist.  A raising copy (`bad` source)
aborts the whole call — the source has no try/except here — losing the
accumulated mapping; the destination paths copied so far remain on disk. -/
def copyLoop (bad : String → Bool) :
    List FailedTask → List String → List (String × List String) →
    List String × Option (List (String × List String))
  | [], fs, m => (fs, some m)
  | t :: rest, fs, m =>
    let dTraj := trajDest t.job_id t.task_id
    let step1 : Option (List String × List (String × List String)) :=
      if dTraj ∈ fs then some (fs, m)
      else if bad t.trajectory_path then none
      else some (dTraj :: fs, addToMap m t.job_id t.task_id)
    match step1 with
    | none => (fs, none)
    | some (fs1, m1) =>
      let step2 : Option (List String) :=
        match t.test_result_path with
        | none => some fs1
        | some src =>
          let dTest := testDest t.job_id t.task_id
          if dTest ∈ fs1 then some fs1
          else if bad src then none
          else some (dTest :: fs1)
      match step2 with
      | none => (fs1, none)
      | some fs2 => copyLoop bad rest fs2 m1

/-- Mirror of `copy_failed_artifacts`.  Result: the archive filesystem after
the call, and `some mapping` (job id to newly archived task ids) when the
call returned normally, `none` when a copy raised. -/
def copy_failed_artifacts (bad : String → Bool) (fs : List String)
    (tasks : List FailedTask) :
    List String × Option (List (String × List String)) :=
  copyLoop bad tasks fs []

/-- The copy oracle under which no `shutil.copy` call raises. -/
def noFail : String → Bool := fun _ => false

/-- Mirror of `run_reflection_analysis` for one job.  The `try` block only
prints (stdout/stderr on completion, a message on timeout or error), so the
subprocess outcome is never consulted; the function then returns the
contents of `FEEDBACK.md` when that file exists and `""` otherwise.
`feedbackFile` is the state of `failed-jobs/{job_id}/FEEDBACK.md` after the
subprocess step. -/
def run_reflection_analysis (outcome : SubprocOutcome)
    (feedbackFile : Option String) : String :=
  match outcome, feedbackFile with
  | _, some s => s
  | _, none => ""

/-- Mirror of `run_signature_iteration`: `False` when the signature file
`nanocode/nanocode.py` is missing, otherwise `True` iff the subprocess
completed with exit code `0` (timeout and invocation errors yield `False`). -/
def run_signature_iteration (signatureFileExists : Bool)
    (outcome : SubprocOutcome) : Bool :=
  if signatureFileExists then
    match outcome with
    | .completed code => code == 0
    | .timedOut => false
    | .raised => false
  else false

/-- Mirror of `push_nanocode_to_hub`: `True` iff the push subprocess
completed with exit code `0`. -/
def push_nanocode_to_hub (outcome : SubprocOutcome) : Bool :=
  match outcome with
  | .completed code => code == 0
  | .timedOut => false
  | .raised => false

/-- Default-valued lookup in an association list, Python
`d.get(k, default)`. -/
def lookupD (m : List (String × Nat)) (k : String) (d : Nat) : Nat :=
  match m with
  | [] => d
  | (k', v) :: rest => if k' = k then v else lookupD rest k d

/-- Python `d[k] = v` on an association list. -/
def setKey (m : List (String × Nat)) (k : String) (v : Nat) :
    List (String × Nat) :=
  match m with
  | [] => [(k, v)]
  | (k', v') :: rest =>
    if k' = k then (k', v) :: rest else (k', v') :: setKey rest k v

/-- Python `d[k] = d.get(k, 0) + 1` on an association list. -/
def bump (m : List (String × Nat)) (k : String) : List (String × Nat) :=
  match m with
  | [] => [(k, 1)]
  | (k', v) :: rest =>
    if k' = k then (k', v + 1) :: rest else (k', v) :: bump rest k

/-- Mirror of the `tasks_by_job` grouping in `monitor_loop`: count the
failed tasks of each job, in first-seen order. -/
def tasksByJob (tasks : List FailedTask) : List (String × Nat) :=
  tasks.foldl (fun m t => bump m t.job_id) []

/-- The keys of an association list. -/
def keysOf (m : List (String × Nat)) : List String :=
  m.map Prod.fst

/-- The trigger condition of `monitor_loop`, verbatim from the source:
`count >= 10 and (count // 10) > (last_count // 10)`. -/
def crossingCheck (count lastCount : Nat) : Bool :=
  decide (count ≥ 10) && decide (count / 10 > lastCount / 10)

/-- Per-job oracles for the external world of one iteration: which source
paths make `shutil.copy` raise, the reflection subprocess outcome and the
state of the job's `FEEDBACK.md` after it, existence of
`nanocode/nanocode.py`, and the mutation and publish subprocess outcomes. -/
structure Oracles where
  copyBad : String → Bool
  reflect : String → SubprocOutcome × Option String
  signatureFileExists : Bool
  mutate : String → SubprocOutcome
  publish : String → SubprocOutcome

/-- What happened to one job that passed the crossing check: the feedback
string returned by `run_reflection_analysis`, and which later stages were
invoked and succeeded. -/
structure JobEvents where
  job_id : String
  count : Nat
  feedback : String
  mutationInvoked : Bool
  mutationOk : Bool
  publishInvoked : Bool
  publishOk : Bool
  deriving DecidableEq

/-- The feedback string `run_reflection_analysis` produces for a job under
the given oracles. -/
def feedbackOf (oc : Oracles) (jobId : String) : String :=
  run_reflection_analysis (oc.reflect jobId).1 (oc.reflect jobId).2

/-- The stage pipeline of `monitor_loop` for one triggered job: run the
reflection analysis; when the feedback is truthy (non-empty), invoke the
signature iteration, and when that reports success, invoke the push. -/
def runPipeline (oc : Oracles) (jobId : String) (count : Nat) : JobEvents :=
  let feedback := feedbackOf oc jobId
  if feedback = "" then
    { job_id := jobId, count := count, feedback := feedback
      mutationInvoked := false, mutationOk := false
      publishInvoked := false, publishOk := false }
  else
    let mOk := run_signature_iteration oc.signatureFileExists (oc.mutate jobId)
    if mOk then
      let pOk := push_nanocode_to_hub (oc.publish jobId)
      { job_id := jobId, count := count, feedback := feedback
        mutationInvoked := true, mutationOk := true
        publishInvoked := true, publishOk := pOk }
    else
      { job_id := jobId, count := count, feedback := feedback
        mutationInvoked := true, mutationOk := false
        publishInvoked := false, publishOk := false }

/-- Body of the per-job loop of `monitor_loop`: apply the crossing check
against the watermark map; when it holds, run the pipeline and — exactly
when the feedback is truthy — set the job's watermark to the current count. -/
def processJob (oc : Oracles) (wm : List (String × Nat)) (jobId : String)
    (count : Nat) : List (String × Nat) × Option JobEvents :=
  if crossingCheck count (lookupD wm jobId 0) then
    let ev := runPipeline oc jobId count
    (if ev.feedback = "" then wm else setKey wm jobId count, some ev)
  else (wm, none)

/-- The per-job loop of `monitor_loop` over `tasks_by_job`, threading the
watermark map and collecting the events of the triggered jobs in order. -/
def processJobs (oc : Oracles) :
    List (String × Nat) → List (String × Nat) →
    List (String × Nat) × List JobEvents
  | [], wm => (wm, [])
  | (jobId, count) :: rest, wm =>
    let r := processJob oc wm jobId count
    let rr := processJobs oc rest r.1
    (rr.1, match r.2 with | some ev => ev :: rr.2 | none => rr.2)

/-- Insert into a list sorted by job id (model of Python `sorted`). -/
def insertSorted (x : String × Nat) :
    List (String × Nat) → List (String × Nat)
  | [] => [x]
  | y :: ys => if x.1 < y.1 then x :: y :: ys else y :: insertSorted x ys

/-- Sort an association list by key, as `sorted(d.items())` does. -/
def sortByKey (l : List (String × Nat)) : List (String × Nat) :=
  l.foldr insertSorted []

/-- Mirror of `print_status`: one line per job with failures, sorted by job
id, carrying the failure count and whether the job is in the loaded
processed set. -/
def statusLines (failed : List FailedTask) (processed : List String) :
    List (String × Nat × Bool) :=
  (sortByKey (tasksByJob failed)).map fun p =>
    (p.1, p.2, decide (p.1 ∈ processed))

/-- The in-memory state `monitor_loop` threads between iterations: the
archive filesystem and the `last_analyzed_count` watermark map. -/
structure LoopState where
  archiveFS : List String
  lastAnalyzed : List (String × Nat)
  deriving DecidableEq

/-- Observable result of one iteration of `monitor_loop`: the new state, the
status lines printed (`none` when no failed task was found or the iteration
aborted before printing), the per-triggered-job events, whether the
iteration was aborted by an exception escaping `copy_failed_artifacts`
(caught at the loop boundary), and the processed-job set as the loop leaves
it (never mutated by the source). -/
structure IterResult where
  endState : LoopState
  status : Option (List (String × Nat × Bool))
  events : List JobEvents
  aborted : Bool
  processedAfter : List String
  deriving DecidableEq

/-- One iteration of the `while True` body of `monitor_loop`: scan, archive,
print status, and run the per-job crossing check and pipeline.  An exception
from the archive step aborts the iteration (the loop catches it, keeps its
state, and continues). -/
def iterationStep (oc : Oracles) (tree : List JobDir)
    (processed : List String) (st : LoopState) : IterResult :=
  let failed := find_failed_tasks tree
  if failed.isEmpty then
    { endState := st, status := none, events := [], aborted := false
      processedAfter := processed }
  else
    let cp := copy_failed_artifacts oc.copyBad st.archiveFS failed
    match cp.2 with
    | none =>
      { endState := { archiveFS := cp.1, lastAnalyzed := st.lastAnalyzed }
        status := none, events := [], aborted := true
        processedAfter := processed }
    | some _ =>
      let pr := processJobs oc (tasksByJob failed) st.lastAnalyzed
      { endState := { archiveFS := cp.1, lastAnalyzed := pr.1 }
        status := some (statusLines failed processed)
        events := pr.2, aborted := false
        processedAfter := processed }

/-! ### Concrete worlds used to instantiate the theorems -/

/-- Example task directory: reward marker `"0"`, trajectory and test-result
files present. -/
def exTask (i : Nat) : TaskDir :=
  { name := "t" ++ toString i, isDir := true, rewardText := some "0"
    trajectoryExists := true, testStdoutExists := true }

/-- Example jobs tree: one job `"j1"` with ten failed tasks. -/
def exTree10 : List JobDir :=
  [{ name := "j1", isDir := true, tasks := (List.range 10).map exTask }]

/-- The empty loop state: empty archive, empty watermark map. -/
def st0 : LoopState :=
  { archiveFS := [], lastAnalyzed := [] }

/-- Oracles of a fully successful pipeline run: every subprocess completes
with exit code `0` and the reflection step leaves `FEEDBACK.md` with
contents `"fb"`. -/
def ocOk : Oracles :=
  { copyBad := noFail
    reflect := fun _ => (.completed 0, some "fb")
    signatureFileExists := true
    mutate := fun _ => .completed 0
    publish := fun _ => .completed 0 }

/-- Oracles of a failing reflection attempt: the reflection subprocess times
out and `FEEDBACK.md` does not exist afterwards. -/
def ocTimeout : Oracles :=
  { ocOk with reflect := fun _ => (.timedOut, none) }

/-- Oracles where a stale empty `FEEDBACK.md` already exists and the
reflection subprocess times out leaving it unchanged. -/
def ocStaleEmpty : Oracles :=
  { ocOk with reflect := fun _ => (.timedOut, some "") }

/-! ### Association-list lemmas -/

theorem lookupD_setKey_self (m : List (String × Nat)) (k : String) (v d : Nat) :
    lookupD (setKey m k v) k d = v := by
  induction m with
  | nil => simp [setKey, lookupD]
  | cons hd tl ih =>
    obtain ⟨a, b⟩ := hd
    by_cases h : a = k <;> simp [setKey, lookupD, h, ih]

theorem lookupD_setKey_ne (m : List (String × Nat)) (k k' : String) (v d : Nat)
    (h : k' ≠ k) : lookupD (setKey m k v) k' d = lookupD m k' d := by
  induction m with
  | nil =>
    have hkk : ¬(k = k') := fun hk => h hk.symm
    simp [setKey, lookupD, hkk]
  | cons hd tl ih =>
    obtain ⟨a, b⟩ := hd
    by_cases hak : a = k
    · subst hak
      have hk' : ¬(a = k') := fun hk => h hk.symm
      simp [setKey, lookupD, hk']
    · by_cases hak' : a = k' <;> simp [setKey, lookupD, h, hak, hak', ih]

theorem lookupD_of_not_mem_keys (m : List (String × Nat)) (k : String) (d : Nat)
    (h : k ∉ keysOf m) : lookupD m k d = d := by
  induction m with
  | nil => rfl
  | cons hd tl ih =>
    obtain ⟨a, b⟩ := hd
    simp only [keysOf, List.map_cons, List.mem_cons] at h
    push_neg at h
    have h1 : ¬(a = k) := fun hk => h.1 hk.symm
    have h2 : k ∉ keysOf tl := fun hk => h.2 (by simpa [keysOf] using hk)
    simp [lookupD, h1, ih h2]

theorem lookupD_of_mem (m : List (String × Nat)) (k : String) (v : Nat)
    (hnd : (keysOf m).Nodup) (hm : (k, v) ∈ m) : lookupD m k 0 = v := by
  induction m with
  | nil => cases hm
  | cons hd tl ih =>
    obtain ⟨a, b⟩ := hd
    simp only [keysOf, List.map_cons, List.nodup_cons] at hnd
    rcases List.mem_cons.mp hm with h | h
    · cases h
      simp [lookupD]
    · have hak : a ≠ k := by
        intro hak
        exact hnd.1 (by simpa [keysOf, hak] using List.mem_map_of_mem Prod.fst h)
      simp [lookupD, hak]
      exact ih hnd.2 h

theorem mem_of_mem_keys (m : List (String × Nat)) (k : String)
    (hk : k ∈ keysOf m) : (k, lookupD m k 0) ∈ m := by
  induction m with
  | nil => cases hk
  | cons hd tl ih =>
    obtain ⟨a, b⟩ := hd
    by_cases hak : a = k
    · subst hak
      simp [lookupD]
    · simp only [keysOf, List.map_cons, List.mem_cons] at hk
      rcases hk with h | h
      · exact absurd h.symm hak
      · simp only [lookupD, hak, if_false]
        exact List.mem_cons_of_mem _ (ih (by simpa [keysOf] using h))

theorem keysOf_bump (m : List (String × Nat)) (k : String) :
    keysOf (bump m k) = if k ∈ keysOf m then keysOf m else keysOf m ++ [k] := by
  induction m with
  | nil => simp [bump, keysOf]
  | cons hd tl ih =>
    obtain ⟨a, b⟩ := hd
    by_cases hak : a = k
    · simp [bump, keysOf, hak]
    · have hka : ¬(k = a) := fun hk => hak hk.symm
      simp only [keysOf] at ih
      by_cases hk : k ∈ List.map Prod.fst tl
      · rw [if_pos hk] at ih
        simp [bump, keysOf, hak, hka, hk, ih]
      · rw [if_neg hk] at ih
        simp [bump, keysOf, hak, hka, hk, ih]

theorem keysOf_bump_nodup (m : List (String × Nat)) (k : String)
    (h : (keysOf m).Nodup) : (keysOf (bump m k)).Nodup := by
  rw [keysOf_bump]
  by_cases hk : k ∈ keysOf m
  · simpa [hk] using h
  · simp [hk, List.nodup_append, h]

theorem tasksByJob_go_nodup (ts : List FailedTask) :
    ∀ m : List (String × Nat), (keysOf m).Nodup →
      (keysOf (ts.foldl (fun m t => bump m t.job_id) m)).Nodup := by
  induction ts with
  | nil => intro m hm; simpa using hm
  | cons t ts ih =>
    intro m hm
    simpa [List.foldl_cons] using ih (bump m t.job_id) (keysOf_bump_nodup m t.job_id hm)

theorem tasksByJob_keys_nodup (ts : List FailedTask) :
    (keysOf (tasksByJob ts)).Nodup :=
  tasksByJob_go_nodup ts [] (by simp [keysOf])

/-! ### The crossing rule -/

theorem crossingCheck_iff (c l : Nat) :
    crossingCheck c l = true ↔ l / 10 < c / 10 := by
  simp only [crossingCheck, Bool.and_eq_true, decide_eq_true_eq, ge_iff_le,
    gt_iff_lt]
  omega

theorem crossingCheck_lt (c l : Nat) (h : crossingCheck c l = true) : l < c := by
  rw [crossingCheck_iff] at h
  by_contra hle
  exact absurd (Nat.div_le_div_right (Nat.le_of_not_lt hle)) (Nat.not_le_of_lt h)

/-! ### The per-job pipeline -/

theorem runPipeline_job_id (oc : Oracles) (j : String) (c : Nat) :
    (runPipeline oc j c).job_id = j := by
  simp only [runPipeline]
  split
  · rfl
  · split <;> rfl

theorem runPipeline_count (oc : Oracles) (j : String) (c : Nat) :
    (runPipeline oc j c).count = c := by
  simp only [runPipeline]
  split
  · rfl
  · split <;> rfl

theorem runPipeline_feedback (oc : Oracles) (j : String) (c : Nat) :
    (runPipeline oc j c).feedback = feedbackOf oc j := by
  simp only [runPipeline]
  split
  · rfl
  · split <;> rfl

theorem runPipeline_stage_order (oc : Oracles) (j : String) (c : Nat) :
    ((runPipeline oc j c).feedback = "" →
      (runPipeline oc j c).mutationInvoked = false ∧
      (runPipeline oc j c).publishInvoked = false) ∧
    ((runPipeline oc j c).mutationOk = false →
      (runPipeline oc j c).publishInvoked = false) := by
  simp only [runPipeline]
  split
  · exact ⟨fun _ => ⟨rfl, rfl⟩, fun _ => rfl⟩
  · rename_i hfb
    split
    · refine ⟨fun h => absurd h hfb, fun h => ?_⟩
      cases h
    · exact ⟨fun h => absurd h hfb, fun _ => rfl⟩

theorem runPipeline_congr (oc oc' : Oracles) (j : String) (c : Nat)
    (hr : oc.reflect j = oc'.reflect j) (hm : oc.mutate j = oc'.mutate j)
    (hp : oc.publish j = oc'.publish j)
    (hs : oc.signatureFileExists = oc'.signatureFileExists) :
    runPipeline oc j c = runPipeline oc' j c := by
  simp only [runPipeline, feedbackOf, hr, hm, hp, hs]

/-! ### The per-job loop over `tasks_by_job` -/

/-- The event filter of one pass of the per-job loop, relative to the
watermark map at the start of the pass. -/
def triggeredEvents (oc : Oracles) (wm : List (String × Nat))
    (l : List (String × Nat)) : List JobEvents :=
  l.filterMap fun p =>
    if crossingCheck p.2 (lookupD wm p.1 0) then some (runPipeline oc p.1 p.2)
    else none

theorem triggeredEvents_cons (oc : Oracles) (wm : List (String × Nat))
    (j : String) (c : Nat) (tl : List (String × Nat)) :
    triggeredEvents oc wm ((j, c) :: tl) =
      if crossingCheck c (lookupD wm j 0) then
        runPipeline oc j c :: triggeredEvents oc wm tl
      else triggeredEvents oc wm tl := by
  by_cases hc : crossingCheck c (lookupD wm j 0) = true <;>
    simp [triggeredEvents, List.filterMap_cons, hc]

theorem triggeredEvents_congr (oc : Oracles) (wm wm' : List (String × Nat))
    (l : List (String × Nat))
    (hag : ∀ k ∈ keysOf l, lookupD wm k 0 = lookupD wm' k 0) :
    triggeredEvents oc wm l = triggeredEvents oc wm' l := by
  refine List.filterMap_congr fun p hp => ?_
  rw [hag p.1 (by simpa [keysOf] using List.mem_map_of_mem Prod.fst hp)]

theorem processJobs_wm_of_not_mem (oc : Oracles) (l : List (String × Nat)) :
    ∀ wm : List (String × Nat), ∀ k : String, k ∉ keysOf l →
      lookupD (processJobs oc l wm).1 k 0 = lookupD wm k 0 := by
  induction l with
  | nil => intro wm k _; rfl
  | cons hd tl ih =>
    intro wm k hk
    obtain ⟨j, c⟩ := hd
    simp only [keysOf, List.map_cons, List.mem_cons] at hk
    push_neg at hk
    have hk2 : k ∉ keysOf tl := fun h => hk.2 (by simpa [keysOf] using h)
    by_cases hc : crossingCheck c (lookupD wm j 0) = true
    · by_cases hfb : (runPipeline oc j c).feedback = ""
      · simp [processJobs, processJob, hc, hfb, ih _ k hk2]
      · simp [processJobs, processJob, hc, hfb, ih _ k hk2,
          lookupD_setKey_ne wm j k c 0 hk.1]
    · simp [processJobs, processJob, hc, ih _ k hk2]

theorem processJobs_events (oc : Oracles) (l : List (String × Nat)) :
    ∀ wm : List (String × Nat), (keysOf l).Nodup →
      (processJobs oc l wm).2 = triggeredEvents oc wm l := by
  induction l with
  | nil => intro wm _; rfl
  | cons hd tl ih =>
    intro wm hnd
    obtain ⟨j, c⟩ := hd
    simp only [keysOf, List.map_cons, List.nodup_cons] at hnd
    have hnotin : j ∉ keysOf tl := hnd.1
    by_cases hc : crossingCheck c (lookupD wm j 0) = true
    · by_cases hfb : (runPipeline oc j c).feedback = ""
      · simp [processJobs, processJob, hc, hfb, ih wm hnd.2,
          triggeredEvents_cons]
      · have hw : triggeredEvents oc (setKey wm j c) tl =
            triggeredEvents oc wm tl := by
          refine triggeredEvents_congr oc _ wm tl fun k hk => ?_
          exact lookupD_setKey_ne wm j k c 0 fun h => hnotin (h ▸ hk)
        simp [processJobs, processJob, hc, hfb, ih _ hnd.2, hw,
          triggeredEvents_cons]
    · simp [processJobs, processJob, hc, ih wm hnd.2, triggeredEvents_cons]

theorem processJobs_wm_of_mem (oc : Oracles) (l : List (String × Nat)) :
    ∀ wm : List (String × Nat), ∀ j : String, ∀ c : Nat,
      (keysOf l).Nodup → (j, c) ∈ l →
      lookupD (processJobs oc l wm).1 j 0 =
        if crossingCheck c (lookupD wm j 0) ∧ feedbackOf oc j ≠ "" then c
        else lookupD wm j 0 := by
  induction l with
  | nil => intro _ _ _ _ h; cases h
  | cons hd tl ih =>
    intro wm j c hnd hm
    obtain ⟨a, b⟩ := hd
    simp only [keysOf, List.map_cons, List.nodup_cons] at hnd
    rcases List.mem_cons.mp hm with h | h
    · cases h
      have hnotin : j ∉ keysOf tl := hnd.1
      by_cases hc : crossingCheck c (lookupD wm j 0) = true
      · by_cases hfb : feedbackOf oc j = ""
        · have hfb' : (runPipeline oc j c).feedback = "" := by
            rw [runPipeline_feedback, hfb]
          simp [processJobs, processJob, hc, hfb', hfb,
            processJobs_wm_of_not_mem oc tl wm j hnotin]
        · have hfb' : ¬((runPipeline oc j c).feedback = "") := by
            rw [runPipeline_feedback]; exact hfb
          simp [processJobs, processJob, hc, hfb', hfb,
            processJobs_wm_of_not_mem oc tl (setKey wm j c) j hnotin,
            lookupD_setKey_self]
      · simp [processJobs, processJob, hc,
          processJobs_wm_of_not_mem oc tl wm j hnotin]
    · have haj : a ≠ j := by
        intro haj
        exact hnd.1 (by simpa [haj, keysOf] using List.mem_map_of_mem Prod.fst h)
      have hja : j ≠ a := Ne.symm haj
      by_cases hc : crossingCheck b (lookupD wm a 0) = true
      · by_cases hfb : (runPipeline oc a b).feedback = ""
        · simp [processJobs, processJob, hc, hfb, ih wm j c hnd.2 h]
        · simp [processJobs, processJob, hc, hfb,
            ih (setKey wm a b) j c hnd.2 h,
            lookupD_setKey_ne wm a j b 0 hja]
      · simp [processJobs, processJob, hc, ih wm j c hnd.2 h]

/-! ### One iteration of the monitor loop -/

theorem iterationStep_not_aborted (oc : Oracles) (tree : List JobDir)
    (processed : List String) (st : LoopState)
    (hnab : (iterationStep oc tree processed st).aborted = false) :
    (iterationStep oc tree processed st).events =
      (processJobs oc (tasksByJob (find_failed_tasks tree)) st.lastAnalyzed).2 ∧
    (iterationStep oc tree processed st).endState.lastAnalyzed =
      (processJobs oc (tasksByJob (find_failed_tasks tree)) st.lastAnalyzed).1 := by
  by_cases hempty : (find_failed_tasks tree).isEmpty = true
  · have htree : find_failed_tasks tree = [] := List.isEmpty_iff.mp hempty
    simp [iterationStep, hempty, htree, tasksByJob, processJobs]
  · cases hcp : (copy_failed_artifacts oc.copyBad st.archiveFS
        (find_failed_tasks tree)).2 with
    | none =>
      rw [iterationStep] at hnab
      simp [hempty, hcp] at hnab
    | some m =>
      simp [iterationStep, hempty, hcp]

theorem iterationStep_aborted (oc : Oracles) (tree : List JobDir)
    (processed : List String) (st : LoopState)
    (hab : (iterationStep oc tree processed st).aborted = true) :
    (iterationStep oc tree processed st).events = [] ∧
    (iterationStep oc tree processed st).endState.lastAnalyzed =
      st.lastAnalyzed := by
  by_cases hempty : (find_failed_tasks tree).isEmpty = true
  · simp [iterationStep, hempty]
  · cases hcp : (copy_failed_artifacts oc.copyBad st.archiveFS
        (find_failed_tasks tree)).2 with
    | none => simp [iterationStep, hempty, hcp]
    | some m =>
      rw [iterationStep] at hab
      simp [hempty, hcp] at hab

/-! ### Archiver lemmas -/

/-- The effect of the trajectory-copy step of one record on the archive:
copy only when the destination does not exist. -/
def trajStep (fs : List String) (t : FailedTask) : List String :=
  if trajDest t.job_id t.task_id ∈ fs then fs
  else trajDest t.job_id t.task_id :: fs

/-- The effect of the test-result-copy step of one record on the archive:
only when the record carries a test-result artifact, and only when the
destination does not exist. -/
def testStep (fs : List String) (t : FailedTask) : List String :=
  match t.test_result_path with
  | none => fs
  | some _ =>
    if testDest t.job_id t.task_id ∈ fs then fs
    else testDest t.job_id t.task_id :: fs

/-- Both destinations of every listed record are present in the archive. -/
def destsArchived (fs : List String) (tasks : List FailedTask) : Prop :=
  ∀ t ∈ tasks, trajDest t.job_id t.task_id ∈ fs ∧
    (t.test_result_path.isSome = true → testDest t.job_id t.task_id ∈ fs)

theorem copyLoop_cons_noFail (t : FailedTask) (rest : List FailedTask)
    (fs : List String) (m : List (String × List String)) :
    copyLoop noFail (t :: rest) fs m =
      copyLoop noFail rest (testStep (trajStep fs t) t)
        (if trajDest t.job_id t.task_id ∈ fs then m
         else addToMap m t.job_id t.task_id) := by
  by_cases h1 : trajDest t.job_id t.task_id ∈ fs
  · cases htp : t.test_result_path with
    | none => simp [copyLoop, noFail, trajStep, testStep, h1, htp]
    | some src =>
      by_cases h2 : testDest t.job_id t.task_id ∈ fs <;>
        simp [copyLoop, noFail, trajStep, testStep, h1, htp, h2]
  · cases htp : t.test_result_path with
    | none => simp [copyLoop, noFail, trajStep, testStep, h1, htp]
    | some src =>
      by_cases h2 : testDest t.job_id t.task_id ∈
          trajDest t.job_id t.task_id :: fs <;>
        simp [copyLoop, noFail, trajStep, testStep, h1, htp, h2]

theorem trajStep_subset (fs : List String) (t : FailedTask) :
    fs ⊆ trajStep fs t := by
  unfold trajStep
  split
  · exact fun x hx => hx
  · exact fun x hx => List.mem_cons_of_mem _ hx

theorem testStep_subset (fs : List String) (t : FailedTask) :
    fs ⊆ testStep fs t := by
  unfold testStep
  split
  · exact fun x hx => hx
  · split
    · exact fun x hx => hx
    · exact fun x hx => List.mem_cons_of_mem _ hx

theorem mem_trajStep (fs : List String) (t : FailedTask) :
    trajDest t.job_id t.task_id ∈ trajStep fs t := by
  unfold trajStep
  split
  · assumption
  · exact List.mem_cons_self _ _

theorem mem_testStep (fs : List String) (t : FailedTask)
    (h : t.test_result_path.isSome = true) :
    testDest t.job_id t.task_id ∈ testStep fs t := by
  unfold testStep
  split
  · rename_i htp
    rw [htp] at h
    cases h
  · split
    · assumption
    · exact List.mem_cons_self _ _

theorem copyLoop_mono (tasks : List FailedTask) :
    ∀ fs m, fs ⊆ (copyLoop noFail tasks fs m).1 := by
  induction tasks with
  | nil => intro fs m; exact fun x hx => hx
  | cons t rest ih =>
    intro fs m
    rw [copyLoop_cons_noFail]
    exact fun x hx =>
      ih _ _ (testStep_subset _ t (trajStep_subset fs t hx))

theorem copyLoop_dests (tasks : List FailedTask) :
    ∀ fs m, destsArchived (copyLoop noFail tasks fs m).1 tasks := by
  induction tasks with
  | nil => intro fs m t ht; cases ht
  | cons t rest ih =>
    intro fs m t' ht'
    rw [copyLoop_cons_noFail]
    rcases List.mem_cons.mp ht' with h | h
    · subst h
      constructor
      · exact copyLoop_mono rest _ _
          (testStep_subset _ t' (mem_trajStep fs t'))
      · intro hsome
        exact copyLoop_mono rest _ _ (mem_testStep _ t' hsome)
    · exact ih _ _ t' h

theorem copyLoop_stable (tasks : List FailedTask) :
    ∀ fs m, destsArchived fs tasks → copyLoop noFail tasks fs m = (fs, some m) := by
  induction tasks with
  | nil => intro fs m _; rfl
  | cons t rest ih =>
    intro fs m hall
    obtain ⟨htraj, htest⟩ := hall t (List.mem_cons_self t rest)
    have h1 : trajStep fs t = fs := by unfold trajStep; rw [if_pos htraj]
    have h2 : testStep fs t = fs := by
      unfold testStep
      cases htp : t.test_result_path with
      | none => rfl
      | some src => rw [if_pos (htest (by rw [htp]; rfl))]
    rw [copyLoop_cons_noFail, h1, h2, if_pos htraj]
    exact ih fs m fun t' ht' => hall t' (List.mem_cons_of_mem t ht')

/-! ### Scanner lemmas -/

theorem scanTask_eq_some (jobId : String) (td : TaskDir) (r : FailedTask) :
    scanTask jobId td = some r ↔
      td.isDir = true ∧ td.rewardText.bind pyInt = some 0 ∧
      td.trajectoryExists = true ∧ r = mkFailedTask jobId td 0 := by
  unfold scanTask
  cases hdir : td.isDir
  · simp
  · cases hrw : td.rewardText with
    | none => simp
    | some s =>
      cases hp : pyInt s with
      | none => simp [hp]
      | some v =>
        by_cases hv : v = 0
        · subst hv
          by_cases htraj : td.trajectoryExists = true <;>
            simp [hp, htraj, eq_comm]
        · simp [hp, hv]

/-! ### Claim theorems -/

/-- C4.  The scanner returns a `FailedTask` record for a task directory iff
its reward marker file exists and parses as the integer `0` and its
trajectory artifact exists; a missing marker, a non-integer marker, or a
zero reward without a trajectory file all skip the task silently (the
scanner is total and simply omits the record). -/
theorem C4_scanner_iff (tree : List JobDir) (r : FailedTask) :
    r ∈ find_failed_tasks tree ↔
      ∃ jd ∈ tree, jd.isDir = true ∧
        ∃ td ∈ jd.tasks, td.isDir = true ∧
          td.rewardText.bind pyInt = some 0 ∧ td.trajectoryExists = true ∧
          r = mkFailedTask jd.name td 0 := by
  simp only [find_failed_tasks, List.mem_flatMap]
  constructor
  · rintro ⟨jd, hjd, hr⟩
    by_cases hdir : jd.isDir = true
    · rw [if_pos hdir] at hr
      obtain ⟨td, htd, hsc⟩ := List.mem_filterMap.mp hr
      obtain ⟨h1, h2, h3, h4⟩ := (scanTask_eq_some _ _ _).mp hsc
      exact ⟨jd, hjd, hdir, td, htd, h1, h2, h3, h4⟩
    · rw [if_neg hdir] at hr
      cases hr
  · rintro ⟨jd, hjd, hdir, td, htd, h1, h2, h3, h4⟩
    refine ⟨jd, hjd, ?_⟩
    rw [if_pos hdir]
    exact List.mem_filterMap.mpr
      ⟨td, htd, (scanTask_eq_some _ _ _).mpr ⟨h1, h2, h3, h4⟩⟩

/-- C2.  The archiver is idempotent.  First conjunct: re-invoking
`copy_failed_artifacts` on the archive produced by a first invocation with
the same record set copies nothing (the filesystem is unchanged) and
reports an empty mapping.  Second conjunct: processing one record copies
the trajectory iff its destination does not already exist, reports the task
as newly archived for its job iff that trajectory copy was performed, and
copies the test-result artifact (when the record has one) independently
under the same no-overwrite rule. -/
theorem C2_archiver_idempotent (fs : List String) (tasks : List FailedTask)
    (t : FailedTask) :
    copy_failed_artifacts noFail (copy_failed_artifacts noFail fs tasks).1
        tasks = ((copy_failed_artifacts noFail fs tasks).1, some []) ∧
    copy_failed_artifacts noFail fs [t] =
      (testStep (trajStep fs t) t,
       some (if trajDest t.job_id t.task_id ∈ fs then []
             else [(t.job_id, [t.task_id])])) := by
  constructor
  · exact copyLoop_stable tasks _ [] (copyLoop_dests tasks fs [])
  · show copyLoop noFail [t] fs [] = _
    rw [copyLoop_cons_noFail]
    by_cases h1 : trajDest t.job_id t.task_id ∈ fs <;>
      simp [copyLoop, addToMap, h1]

/-- The copy oracle of the C5 failing input: copying the trajectory source
of job `j1`, task `t1` raises (for example the file is unreadable). -/
def badCopyEx : String → Bool :=
  fun p => p == trajectoryPath "j1" "t1"

/-- A concrete failed-task record as the scanner builds it. -/
def exFailedTask (j t : String) : FailedTask :=
  mkFailedTask j
    { name := t, isDir := true, rewardText := some "0"
      trajectoryExists := true, testStdoutExists := true } 0

/-- C5.  Evaluation of `copy_failed_artifacts` at the failing input: two
records, the first of which raises during its trajectory copy.  The call
propagates the exception (`none`): the second record is never processed —
its artifacts are not copied (the archive stays empty) and no mapping of
newly archived tasks is produced.  The second conjunct shows the same
record set under a non-raising copy oracle: both records are archived and
reported, which is what processing the remaining records would have done. -/
theorem C5_copy_failure_aborts_rest :
    copy_failed_artifacts badCopyEx []
        [exFailedTask "j1" "t1", exFailedTask "j2" "t2"] = ([], none) ∧
    copy_failed_artifacts noFail []
        [exFailedTask "j1" "t1", exFailedTask "j2" "t2"] =
      ([testDest "j2" "t2", trajDest "j2" "t2",
        testDest "j1" "t1", trajDest "j1" "t1"],
       some [("j1", ["t1"]), ("j2", ["t2"])]) := by
  exact ⟨rfl, rfl⟩

/-- C6 (amended).  `run_reflection_analysis` is a total function (it cannot
raise), its result is independent of the subprocess outcome — exit code,
timeout, and invocation error have no effect, so success is possible with a
non-zero exit — and the absent value `""` is returned iff the feedback file
does not exist or exists with empty contents; the stage therefore succeeds
iff the file exists with non-empty contents, not merely iff it exists. -/
theorem C6_reflection_result (o o' : SubprocOutcome) (fb : Option String) :
    run_reflection_analysis o fb = run_reflection_analysis o' fb ∧
    (run_reflection_analysis o fb = "" ↔ fb = none ∨ fb = some "") := by
  cases fb <;> cases o <;> cases o' <;>
    simp [run_reflection_analysis]

/-- C6 counterexample.  First conjunct: the feedback file exists (contents
`""`), yet the absent value `""` is returned and the caller (`if feedback:`)
treats the stage as failed — refuting "absent is returned iff the file does
not exist".  Second conjunct: the subprocess timed out, yet the existing
artifact's contents are returned and the stage succeeds — refuting "on
subprocess timeout it returns absent". -/
theorem C6_counterexample :
    run_reflection_analysis (SubprocOutcome.completed 0) (some "") = "" ∧
    run_reflection_analysis SubprocOutcome.timedOut (some "fb") = "fb" :=
  ⟨rfl, rfl⟩

theorem mem_triggeredEvents (oc : Oracles) (wm : List (String × Nat))
    (l : List (String × Nat)) (e : JobEvents)
    (he : e ∈ triggeredEvents oc wm l) : ∃ j c, e = runPipeline oc j c := by
  obtain ⟨p, hp, hpe⟩ := List.mem_filterMap.mp he
  by_cases hc : crossingCheck p.2 (lookupD wm p.1 0) = true
  · rw [if_pos hc] at hpe
    exact ⟨p.1, p.2, (Option.some.inj hpe).symm⟩
  · rw [if_neg hc] at hpe
    cases hpe

theorem runPipeline_mutationInvoked (oc : Oracles) (j : String) (c : Nat) :
    (runPipeline oc j c).mutationInvoked = true ↔ feedbackOf oc j ≠ "" := by
  simp only [runPipeline]
  split
  · rename_i h
    simp [h]
  · rename_i h
    split <;> simp [h]

theorem triggeredEvents_filter_congr (oc oc' : Oracles) (a : String)
    (wm : List (String × Nat))
    (hs : oc.signatureFileExists = oc'.signatureFileExists)
    (hag : ∀ j, j ≠ a → oc.reflect j = oc'.reflect j ∧
        oc.mutate j = oc'.mutate j ∧ oc.publish j = oc'.publish j) :
    ∀ l : List (String × Nat),
      (triggeredEvents oc wm l).filter (fun e => decide (e.job_id ≠ a)) =
      (triggeredEvents oc' wm l).filter (fun e => decide (e.job_id ≠ a)) := by
  intro l
  induction l with
  | nil => rfl
  | cons p tl ih =>
    obtain ⟨j, c⟩ := p
    rw [triggeredEvents_cons, triggeredEvents_cons]
    by_cases hc : crossingCheck c (lookupD wm j 0) = true
    · rw [if_pos hc, if_pos hc]
      by_cases hja : j = a
      · subst hja
        rw [List.filter_cons, List.filter_cons]
        simpa [runPipeline_job_id] using ih
      · obtain ⟨hr, hm, hp⟩ := hag j hja
        rw [runPipeline_congr oc oc' j c hr hm hp hs]
        rw [List.filter_cons, List.filter_cons]
        simpa [runPipeline_job_id, hja] using ih
    · rw [if_neg hc, if_neg hc]
      exact ih

/-- C1.  On every non-aborted iteration, the reflection pipeline runs for a
job iff the crossing rule holds: `floor(count / 10) > floor(watermark / 10)`,
where `count` is the job's current failure count from this scan (`0` for a
job with no failed tasks) and the watermark defaults to `0` for a job never
analyzed.  The trailing conjuncts check the three instances named by the
claim: watermark `9` with count `10` triggers, watermark `10` with count
`15` does not, watermark `19` with count `20` triggers again. -/
theorem C1_crossing_trigger (oc : Oracles) (tree : List JobDir)
    (processed : List String) (st : LoopState) (j : String)
    (hnab : (iterationStep oc tree processed st).aborted = false) :
    ((∃ e ∈ (iterationStep oc tree processed st).events, e.job_id = j) ↔
      lookupD st.lastAnalyzed j 0 / 10 <
        lookupD (tasksByJob (find_failed_tasks tree)) j 0 / 10) ∧
    crossingCheck 10 9 = true ∧ crossingCheck 15 10 = false ∧
    crossingCheck 20 19 = true := by
  refine ⟨?_, by decide, by decide, by decide⟩
  obtain ⟨hev, _⟩ := iterationStep_not_aborted oc tree processed st hnab
  rw [hev, processJobs_events oc _ st.lastAnalyzed
    (tasksByJob_keys_nodup (find_failed_tasks tree))]
  constructor
  · rintro ⟨e, he, hej⟩
    obtain ⟨p, hp, hpe⟩ := List.mem_filterMap.mp he
    by_cases hc : crossingCheck p.2 (lookupD st.lastAnalyzed p.1 0) = true
    · rw [if_pos hc] at hpe
      have he' := Option.some.inj hpe
      subst he'
      rw [runPipeline_job_id] at hej
      subst hej
      have hv : lookupD (tasksByJob (find_failed_tasks tree)) p.1 0 = p.2 :=
        lookupD_of_mem _ p.1 p.2
          (tasksByJob_keys_nodup (find_failed_tasks tree)) (by simpa using hp)
      rw [hv]
      exact (crossingCheck_iff _ _).mp hc
    · rw [if_neg hc] at hpe
      cases hpe
  · intro hlt
    have hjk : j ∈ keysOf (tasksByJob (find_failed_tasks tree)) := by
      by_contra hnk
      rw [lookupD_of_not_mem_keys _ j 0 hnk] at hlt
      simp at hlt
    refine ⟨runPipeline oc j (lookupD (tasksByJob (find_failed_tasks tree)) j 0),
      ?_, runPipeline_job_id oc j _⟩
    refine List.mem_filterMap.mpr
      ⟨(j, lookupD (tasksByJob (find_failed_tasks tree)) j 0),
        mem_of_mem_keys _ j hjk, ?_⟩
    rw [if_pos ((crossingCheck_iff _ _).mpr hlt)]

/-- Witness for C1 on the concrete world: one job with ten failures and
watermark `0` crosses (`10 / 10 > 0 / 10`), so the pipeline runs for it. -/
theorem C1_witness :
    ∃ e ∈ (iterationStep ocOk exTree10 [] st0).events, e.job_id = "j1" :=
  ((C1_crossing_trigger ocOk exTree10 [] st0 "j1" rfl).1).mpr (by decide)

/-- C3 (amended).  For a crossing that triggers an analysis attempt, the
watermark is advanced to the current failure count iff the ReflectionStage
succeeds (non-empty feedback); the advance does not depend on the
MutationStage or PublishStage oracles, so a later pipeline failure never
rolls it back.  When the reflection attempt fails the watermark is left
unchanged, so the same crossing still passes the check and re-triggers on
the next iteration while the count is unchanged. -/
theorem C3_watermark_on_failure (oc : Oracles) (tree : List JobDir)
    (processed : List String) (st : LoopState) (j : String) (c : Nat)
    (hmem : (j, c) ∈ tasksByJob (find_failed_tasks tree))
    (hcross : crossingCheck c (lookupD st.lastAnalyzed j 0) = true)
    (hnab : (iterationStep oc tree processed st).aborted = false) :
    (feedbackOf oc j ≠ "" →
      lookupD (iterationStep oc tree processed st).endState.lastAnalyzed j 0
        = c) ∧
    (feedbackOf oc j = "" →
      lookupD (iterationStep oc tree processed st).endState.lastAnalyzed j 0
          = lookupD st.lastAnalyzed j 0 ∧
      crossingCheck c
        (lookupD (iterationStep oc tree processed st).endState.lastAnalyzed
          j 0) = true) := by
  obtain ⟨_, hwm⟩ := iterationStep_not_aborted oc tree processed st hnab
  rw [hwm, processJobs_wm_of_mem oc _ st.lastAnalyzed j c
    (tasksByJob_keys_nodup (find_failed_tasks tree)) hmem]
  constructor
  · intro hfb
    rw [if_pos ⟨hcross, hfb⟩]
  · intro hfb
    rw [if_neg fun h => h.2 hfb]
    exact ⟨rfl, hcross⟩

/-- Witness for C3 on the concrete world: the reflection succeeds with
feedback `"fb"`, so the watermark of `"j1"` is advanced to the count `10`. -/
theorem C3_witness :
    lookupD (iterationStep ocOk exTree10 [] st0).endState.lastAnalyzed
      "j1" 0 = 10 :=
  (C3_watermark_on_failure ocOk exTree10 [] st0 "j1" 10 (by decide)
    (by decide) rfl).1 (by decide)

/-- C3 counterexample.  Job `"j1"` crosses with count `10` and watermark `0`
but the reflection attempt fails (timeout, no feedback file).  The claim
says the watermark is advanced to `10` anyway and the crossing is consumed;
the code leaves it at `0` (first conjunct), and on the next iteration the
same crossing with the unchanged count triggers analysis again (second
conjunct: the second iteration again produces one pipeline event). -/
theorem C3_counterexample :
    lookupD (iterationStep ocTimeout exTree10 [] st0).endState.lastAnalyzed
      "j1" 0 = 0 ∧
    (iterationStep ocTimeout exTree10 []
        (iterationStep ocTimeout exTree10 [] st0).endState).events.length
      = 1 :=
  ⟨rfl, rfl⟩

/-- C7.  Stage ordering and isolation.  First conjunct: in any iteration,
no event invokes MutationStage when its ReflectionStage returned absent
(empty feedback), and no event invokes PublishStage when its MutationStage
reported failure.  Second conjunct: the events of the jobs other than `a`
are unchanged when only job `a`'s stage oracles differ — one job's stage
failures cannot prevent the remaining jobs of the same iteration from being
processed through their own pipelines. -/
theorem C7_stage_isolation (oc oc' : Oracles) (tree : List JobDir)
    (processed : List String) (st : LoopState) (a : String)
    (hcb : oc.copyBad = oc'.copyBad)
    (hs : oc.signatureFileExists = oc'.signatureFileExists)
    (hag : ∀ j, j ≠ a → oc.reflect j = oc'.reflect j ∧
        oc.mutate j = oc'.mutate j ∧ oc.publish j = oc'.publish j) :
    (∀ e ∈ (iterationStep oc tree processed st).events,
      (e.feedback = "" → e.mutationInvoked = false ∧
        e.publishInvoked = false) ∧
      (e.mutationOk = false → e.publishInvoked = false)) ∧
    ((iterationStep oc tree processed st).events.filter
        (fun e => decide (e.job_id ≠ a)) =
      (iterationStep oc' tree processed st).events.filter
        (fun e => decide (e.job_id ≠ a))) := by
  constructor
  · intro e he
    cases hab : (iterationStep oc tree processed st).aborted with
    | true =>
      rw [(iterationStep_aborted oc tree processed st hab).1] at he
      cases he
    | false =>
      rw [(iterationStep_not_aborted oc tree processed st hab).1,
        processJobs_events oc _ st.lastAnalyzed
          (tasksByJob_keys_nodup (find_failed_tasks tree))] at he
      obtain ⟨j, c, rfl⟩ := mem_triggeredEvents oc _ _ e he
      exact runPipeline_stage_order oc j c
  · by_cases hempty : (find_failed_tasks tree).isEmpty = true
    · simp [iterationStep, hempty]
    · cases hcp : (copy_failed_artifacts oc.copyBad st.archiveFS
          (find_failed_tasks tree)).2 with
      | none =>
        have hcp' : (copy_failed_artifacts oc'.copyBad st.archiveFS
            (find_failed_tasks tree)).2 = none := by rw [← hcb]; exact hcp
        simp [iterationStep, hempty, hcp, hcp']
      | some m =>
        have hcp' : (copy_failed_artifacts oc'.copyBad st.archiveFS
            (find_failed_tasks tree)).2 = some m := by rw [← hcb]; exact hcp
        simp only [iterationStep, hempty, Bool.false_eq_true, if_false,
          hcp, hcp']
        rw [processJobs_events oc _ st.lastAnalyzed
            (tasksByJob_keys_nodup (find_failed_tasks tree)),
          processJobs_events oc' _ st.lastAnalyzed
            (tasksByJob_keys_nodup (find_failed_tasks tree))]
        exact triggeredEvents_filter_congr oc oc' a st.lastAnalyzed hs hag _

/-- Oracles that differ from `ocOk` only at job `"j1"`, whose reflection
attempt fails. -/
def ocRefFailJ1 : Oracles :=
  { ocOk with
    reflect := fun j =>
      if j == "j1" then (.timedOut, none) else (.completed 0, some "fb") }

/-- Witness for C7: with oracles differing only at job `"j1"`, the events of
the other jobs coincide. -/
theorem C7_witness :
    (iterationStep ocOk exTree10 [] st0).events.filter
        (fun e => decide (e.job_id ≠ "j1")) =
      (iterationStep ocRefFailJ1 exTree10 [] st0).events.filter
        (fun e => decide (e.job_id ≠ "j1")) :=
  (C7_stage_isolation ocOk ocRefFailJ1 exTree10 [] st0 "j1" rfl rfl
    (fun j hj => ⟨by simp [ocOk, ocRefFailJ1, hj], rfl, rfl⟩)).2

/-- C8.  Per-job watermark monotonicity over one iteration: the watermark
never decreases, and whenever it changes, the reflection feedback was
non-empty (a successful ReflectionStage) and the new value is the job's
current failure count, which is strictly greater than the old watermark
because the crossing check held. -/
theorem C8_watermark_monotone (oc : Oracles) (tree : List JobDir)
    (processed : List String) (st : LoopState) (j : String) :
    lookupD st.lastAnalyzed j 0 ≤
      lookupD (iterationStep oc tree processed st).endState.lastAnalyzed
        j 0 ∧
    (lookupD (iterationStep oc tree processed st).endState.lastAnalyzed j 0
        = lookupD st.lastAnalyzed j 0 ∨
      ((feedbackOf oc j == "") = false ∧
        lookupD (iterationStep oc tree processed st).endState.lastAnalyzed
            j 0
          = lookupD (tasksByJob (find_failed_tasks tree)) j 0 ∧
        lookupD st.lastAnalyzed j 0 <
          lookupD (tasksByJob (find_failed_tasks tree)) j 0)) := by
  cases hab : (iterationStep oc tree processed st).aborted with
  | true =>
    rw [(iterationStep_aborted oc tree processed st hab).2]
    exact ⟨Nat.le_refl _, Or.inl rfl⟩
  | false =>
    rw [(iterationStep_not_aborted oc tree processed st hab).2]
    by_cases hjk : j ∈ keysOf (tasksByJob (find_failed_tasks tree))
    · have hv := mem_of_mem_keys _ j hjk
      rw [processJobs_wm_of_mem oc _ st.lastAnalyzed j _
        (tasksByJob_keys_nodup (find_failed_tasks tree)) hv]
      by_cases hcond : crossingCheck
          (lookupD (tasksByJob (find_failed_tasks tree)) j 0)
          (lookupD st.lastAnalyzed j 0) = true ∧ feedbackOf oc j ≠ ""
      · rw [if_pos hcond]
        have hlt := crossingCheck_lt _ _ hcond.1
        exact ⟨Nat.le_of_lt hlt,
          Or.inr ⟨beq_eq_false_iff_ne.mpr hcond.2, rfl, hlt⟩⟩
      · rw [if_neg hcond]
        exact ⟨Nat.le_refl _, Or.inl rfl⟩
    · rw [processJobs_wm_of_not_mem oc _ st.lastAnalyzed j hjk]
      exact ⟨Nat.le_refl _, Or.inl rfl⟩

/-- C9.  The persisted processed-job set does not influence triggering: two
iterations that differ only in the loaded processed-job set produce the
same end state (archive and watermarks), the same pipeline events (hence
the same set of triggered jobs), and the same abort flag; the set is only
displayed in the status output, and the loop leaves it exactly as loaded
(it is never populated). -/
theorem C9_processed_set_not_consulted (oc : Oracles) (tree : List JobDir)
    (st : LoopState) (p1 p2 : List String) :
    (iterationStep oc tree p1 st).endState =
        (iterationStep oc tree p2 st).endState ∧
    (iterationStep oc tree p1 st).events =
        (iterationStep oc tree p2 st).events ∧
    (iterationStep oc tree p1 st).aborted =
        (iterationStep oc tree p2 st).aborted ∧
    (iterationStep oc tree p1 st).processedAfter = p1 := by
  by_cases hempty : (find_failed_tasks tree).isEmpty = true
  · simp [iterationStep, hempty]
  · cases hcp : (copy_failed_artifacts oc.copyBad st.archiveFS
        (find_failed_tasks tree)).2 with
    | none => simp [iterationStep, hempty, hcp]
    | some m => simp [iterationStep, hempty, hcp]

/-- C10 (amended).  If the feedback file for a triggered job exists with
contents `s` when `run_reflection_analysis` reads it (for example a
leftover from a previous crossing that the failed invocation did not
touch), the stage returns exactly those contents regardless of the
subprocess outcome — no fresh analysis is needed — and the pipeline
proceeds to MutationStage iff the contents are non-empty. -/
theorem C10_preexisting_feedback (oc : Oracles) (tree : List JobDir)
    (processed : List String) (st : LoopState) (j : String) (c : Nat)
    (o : SubprocOutcome) (s : String)
    (hmem : (j, c) ∈ tasksByJob (find_failed_tasks tree))
    (hcross : crossingCheck c (lookupD st.lastAnalyzed j 0) = true)
    (hnab : (iterationStep oc tree processed st).aborted = false)
    (hfb : oc.reflect j = (o, some s)) :
    ∃ e ∈ (iterationStep oc tree processed st).events,
      e.job_id = j ∧ e.feedback = s ∧
      (e.mutationInvoked = true ↔ s ≠ "") := by
  have hfs : feedbackOf oc j = s := by
    unfold feedbackOf
    rw [hfb]
    rfl
  obtain ⟨hev, _⟩ := iterationStep_not_aborted oc tree processed st hnab
  rw [hev, processJobs_events oc _ st.lastAnalyzed
    (tasksByJob_keys_nodup (find_failed_tasks tree))]
  refine ⟨runPipeline oc j c, ?_, runPipeline_job_id oc j c, ?_, ?_⟩
  · exact List.mem_filterMap.mpr ⟨(j, c), hmem, by rw [if_pos hcross]⟩
  · rw [runPipeline_feedback, hfs]
  · rw [runPipeline_mutationInvoked, hfs]

/-- Witness for C10 on the concrete world: the feedback file holds `"fb"`
when read, so the event for `"j1"` carries feedback `"fb"` and invokes
MutationStage. -/
theorem C10_witness :
    ∃ e ∈ (iterationStep ocOk exTree10 [] st0).events,
      e.job_id = "j1" ∧ e.feedback = "fb" ∧
      (e.mutationInvoked = true ↔ "fb" ≠ "") :=
  C10_preexisting_feedback ocOk exTree10 [] st0 "j1" 10
    (SubprocOutcome.completed 0) "fb" (by decide) (by decide) rfl rfl

/-- C10 counterexample.  The feedback file already exists but is empty and
the invocation times out leaving it unchanged.  The claim says the stage is
treated as successful regardless; the code produces the event with empty
feedback, does not invoke MutationStage, and does not advance the
watermark — the stage is treated as failed. -/
theorem C10_counterexample :
    (iterationStep ocStaleEmpty exTree10 [] st0).events =
      [{ job_id := "j1", count := 10, feedback := "",
         mutationInvoked := false, mutationOk := false,
         publishInvoked := false, publishOk := false }] ∧
    lookupD (iterationStep ocStaleEmpty exTree10 [] st0).endState.lastAnalyzed
      "j1" 0 = 0 :=
  ⟨rfl, rfl⟩

end Reflect
